import Mathlib

/-!
Shallow embedding of `src/main.py` of chzzk-vod-dl: a sequential .ts
segment downloader (retry loop with linear backoff, five-consecutive-failure
stop condition), an FFmpeg concat manifest writer, a muxer invocation and a
cleanup pass.  Network and filesystem effects are modelled explicitly: HTTP
responses become a response oracle `Nat → Nat → Bool` (segment index,
attempt index, whether the attempt succeeds with status 200), file writes
become accumulated strings, and directory operations act on lists of entry
names.
-/

namespace ChzzkVodDl

/-- Model of the Python builtin `str.isalnum` on one character, covering the
Basic Latin and Latin-1 Supplement blocks of Unicode (the region exercised by
this development).  Within Latin-1, a character is alphanumeric exactly when
Unicode classifies it as a letter or a numeric character: the ASCII letters
and digits, the letters U+00AA, U+00B5, U+00BA, U+00C0–U+00D6, U+00D8–U+00F6,
U+00F8–U+00FF, and the numeric characters U+00B2, U+00B3, U+00B9,
U+00BC–U+00BE.  Characters above U+00FF are outside the model and map to
`false`. -/
def pyIsAlnum (c : Char) : Bool :=
  (48 ≤ c.toNat && c.toNat ≤ 57) || (65 ≤ c.toNat && c.toNat ≤ 90) ||
  (97 ≤ c.toNat && c.toNat ≤ 122) ||
  c.toNat == 0xAA || c.toNat == 0xB5 || c.toNat == 0xBA ||
  c.toNat == 0xB2 || c.toNat == 0xB3 || c.toNat == 0xB9 ||
  (0xBC ≤ c.toNat && c.toNat ≤ 0xBE) ||
  (0xC0 ≤ c.toNat && c.toNat ≤ 0xD6) || (0xD8 ≤ c.toNat && c.toNat ≤ 0xF6) ||
  (0xF8 ≤ c.toNat && c.toNat ≤ 0xFF)

/-- Model of the Python builtin `str.isspace` on one character over the same
Basic Latin and Latin-1 Supplement region: U+0009–U+000D, U+001C–U+001F,
U+0020, U+0085 and U+00A0. -/
def pyIsSpace (c : Char) : Bool :=
  (9 ≤ c.toNat && c.toNat ≤ 13) || (28 ≤ c.toNat && c.toNat ≤ 31) ||
  c.toNat == 32 || c.toNat == 0x85 || c.toNat == 0xA0

/-- Character filter of `sanitize_filename`: `c.isalnum() or c in (' ', '.', '_', '-')`. -/
def keepChar (c : Char) : Bool :=
  pyIsAlnum c || (c == ' ' || c == '.' || c == '_' || c == '-')

/-- Model of the Python `str.strip()` on a character list: drop leading and
trailing whitespace characters. -/
def pyStripList (l : List Char) : List Char :=
  ((l.dropWhile pyIsSpace).reverse.dropWhile pyIsSpace).reverse

/-- Embedding of `sanitize_filename` (src/main.py lines 5–7):
`"".join(c for c in filename if c.isalnum() or c in (' ', '.', '_', '-')).strip()`. -/
def sanitize_filename (filename : String) : String :=
  ⟨pyStripList (filename.data.filter keepChar)⟩

/-- Decimal digits, most significant first, with explicit fuel so that the
recursion is structural; `fuel > n` suffices because the argument at least
halves each step. -/
def toDecimalAux : Nat → Nat → List Char
  | 0, _ => []
  | fuel + 1, n =>
    if n < 10 then [Nat.digitChar n]
    else toDecimalAux fuel (n / 10) ++ [Nat.digitChar (n % 10)]

/-- Decimal digits of a natural number, most significant first, as produced by
the Python `d` format conversion. -/
def toDecimal (n : Nat) : List Char :=
  toDecimalAux (n + 1) n

/-- Embedding of the Python format expression `f"{segment_number:06d}"`
(src/main.py line 22): the decimal form, left padded with zeros to width 6. -/
def pad6 (n : Nat) : String :=
  ⟨List.replicate (6 - (toDecimal n).length) '0' ++ toDecimal n⟩

/-- Replace loop with explicit fuel so that the recursion is structural; each
step consumes at least one character, so `fuel ≥ s.length` gives the intended
behaviour.  After a match of a non-empty `pat` the scan resumes right after
it: `List.drop (pat.length - 1) rest` is `List.drop pat.length (c :: rest)`. -/
def strReplaceAux (pat rep : List Char) : Nat → List Char → List Char
  | _, [] => []
  | 0, s => s
  | fuel + 1, c :: rest =>
    if !pat.isEmpty && pat.isPrefixOf (c :: rest) then
      rep ++ strReplaceAux pat rep fuel (List.drop (pat.length - 1) rest)
    else
      c :: strReplaceAux pat rep fuel rest

/-- Model of the Python `str.replace(pat, rep)` on character lists for a
non-empty pattern: scan left to right, replace each non-overlapping occurrence
of `pat` by `rep` and resume after it.  The program only calls it with the
fixed pattern `-000000.ts`, which is non-empty; an empty pattern is treated as
matching nowhere. -/
def strReplace (pat rep s : List Char) : List Char :=
  strReplaceAux pat rep s.length s

/-- Whether `pat` occurs as a contiguous run inside `s` (the Python `in`
operator on strings). -/
def occursIn (pat : List Char) : List Char → Bool
  | [] => pat.isEmpty
  | c :: rest => pat.isPrefixOf (c :: rest) || occursIn pat rest

/-- Fixed pattern replaced in the base URL (src/main.py line 24). -/
def segPat : List Char := "-000000.ts".data

/-- Replacement text for segment index `i`: `f"-{segment_str}.ts"`. -/
def segRep (i : Nat) : List Char := ("-" ++ pad6 i ++ ".ts").data

/-- Embedding of the URL construction (src/main.py lines 22–24):
`url = base_url.replace("-000000.ts", f"-{segment_str}.ts")`. -/
def renderSegmentUrl (base_url : String) (i : Nat) : String :=
  ⟨strReplace segPat (segRep i) base_url.data⟩

/-- Model of the Python `str.startswith` as a character-list prefix test. -/
def pyStartsWith (s pre : String) : Bool :=
  pre.data.isPrefixOf s.data

/-- Model of the Python `str.endswith` as a character-list suffix test. -/
def pyEndsWith (s suffix : String) : Bool :=
  suffix.data.isSuffixOf s.data

/-- Model of POSIX `os.path.join` with two components. -/
def osPathJoin (a b : String) : String :=
  if pyStartsWith b "/" then b
  else if a = "" then b
  else if pyEndsWith a "/" then a ++ b
  else a ++ "/" ++ b

/-- Model of POSIX `os.path.basename`: the part after the last slash. -/
def os_path_basename (p : String) : String :=
  ⟨(p.data.reverse.takeWhile (fun c => c != '/')).reverse⟩

/-- Retry loop of one segment (src/main.py lines 27–50), abstracted over a
per-attempt response oracle (`respond a = true` means attempt `a`, 0-indexed,
yields HTTP status 200).  Arguments: current attempt index and number of
attempts remaining out of `retries`.  Returns whether any attempt succeeded
together with the list of sleep durations performed, in order: after a failed
attempt with `attempt < retries - 1` the code runs
`time.sleep(backoff * (attempt + 1))`. -/
def goAttempt (respond : Nat → Bool) (retries backoff : Nat) : Nat → Nat → Bool × List Nat
  | _, 0 => (false, [])
  | attempt, remaining + 1 =>
    if respond attempt then (true, [])
    else
      let rest := goAttempt respond retries backoff (attempt + 1) remaining
      if attempt < retries - 1 then (rest.1, backoff * (attempt + 1) :: rest.2)
      else rest

/-- Full retry loop for one segment: `for attempt in range(retries)`. -/
def segmentAttempts (respond : Nat → Bool) (retries backoff : Nat) : Bool × List Nat :=
  goAttempt respond retries backoff 0 retries

/-- Loop state of `download_ts_segments`: the current segment index, the
consecutive-failure counter and the accumulated saved file paths. -/
structure DLState where
  segment_number : Nat
  failed_attempts : Nat
  ts_files : List String

/-- Path under which a successful segment download is saved
(src/main.py lines 33–34): the temp folder joined with the sanitized
`f"{segment_str}.ts"` name. -/
def segPath (temp_folder : String) (i : Nat) : String :=
  osPathJoin temp_folder (sanitize_filename (pad6 i ++ ".ts"))

/-- One iteration of the `while True` loop of `download_ts_segments`
(src/main.py lines 20–60), abstracted over a response oracle
(`oracle i a = true` means attempt `a` on segment `i` succeeds).  Returns the
next state and whether the loop breaks: on success the path is appended and
the failure counter resets to 0; on a whole-segment failure the counter
increments and the loop stops once it reaches 5, before the index advances. -/
def stepSegment (oracle : Nat → Nat → Bool) (retries backoff : Nat) (temp_folder : String)
    (st : DLState) : DLState × Bool :=
  if (segmentAttempts (oracle st.segment_number) retries backoff).1 then
    (⟨st.segment_number + 1, 0, st.ts_files ++ [segPath temp_folder st.segment_number]⟩, false)
  else
    if st.failed_attempts + 1 ≥ 5 then
      (⟨st.segment_number, st.failed_attempts + 1, st.ts_files⟩, true)
    else
      (⟨st.segment_number + 1, st.failed_attempts + 1, st.ts_files⟩, false)

/-- Fuelled unfolding of the `while True` loop: `none` when the fuel runs out
before the stop condition fires, otherwise the returned `ts_files` list. -/
def runLoop (oracle : Nat → Nat → Bool) (retries backoff : Nat) (temp_folder : String) :
    Nat → DLState → Option (List String)
  | 0, _ => none
  | fuel + 1, st =>
    let r := stepSegment oracle retries backoff temp_folder st
    if r.2 then some r.1.ts_files else runLoop oracle retries backoff temp_folder fuel r.1

/-- Embedding of `download_ts_segments` (src/main.py lines 9–62) over a
response oracle, starting from segment 0 with a zero failure counter and no
saved files.  The source defaults are `retries = 3`, `backoff = 2`. -/
def download_ts_segments (oracle : Nat → Nat → Bool) (temp_folder : String)
    (retries backoff fuel : Nat) : Option (List String) :=
  runLoop oracle retries backoff temp_folder fuel ⟨0, 0, []⟩

/-- Trace of the fetch loop: state after `n` processed segments, together with
whether the loop has already stopped. -/
def runTrace (oracle : Nat → Nat → Bool) (retries backoff : Nat) (temp_folder : String) :
    Nat → DLState × Bool
  | 0 => (⟨0, 0, []⟩, false)
  | n + 1 =>
    let p := runTrace oracle retries backoff temp_folder n
    if p.2 then p else stepSegment oracle retries backoff temp_folder p.1

/-- ASCII apostrophe, written by the manifest lines. -/
def quoteChar : Char := Char.ofNat 39

/-- One manifest line (src/main.py line 70): the text written by
`file.write(f"file ...")` for one saved segment, quoting the base name. -/
def manifestLine (ts_file : String) : String :=
  "file " ++ String.singleton quoteChar ++ os_path_basename ts_file
    ++ String.singleton quoteChar ++ "\n"

/-- Embedding of `create_ffmpeg_file_list` (src/main.py lines 64–72): returns
the manifest path and the full text accumulated by the write loop. -/
def create_ffmpeg_file_list (ts_files : List String) (temp_folder : String) : String × String :=
  (osPathJoin temp_folder "file_list.txt",
   ts_files.foldl (fun acc f => acc ++ manifestLine f) "")

/-- Embedding of `combine_ts_files_ffmpeg` (src/main.py lines 74–78): the
shell command string passed to `os.system`. -/
def combine_ts_files_ffmpeg (file_list_path output_file : String) : String :=
  "ffmpeg -f concat -safe 0 -i \"" ++ file_list_path ++ "\" -c copy \"" ++ output_file ++ "\""

/-- Entries deleted by `cleanup_ts_files` (src/main.py lines 80–85) from a
flat directory listing: exactly those whose name ends in `.ts`. -/
def cleanupDeleted (entries : List String) : List String :=
  entries.filter (fun f => pyEndsWith f ".ts")

/-- Directory contents remaining after `cleanup_ts_files` runs on a flat
directory listing. -/
def cleanup_ts_files (entries : List String) : List String :=
  entries.filter (fun f => !(pyEndsWith f ".ts"))

/-- Observable actions of the driver block (src/main.py lines 104–114) after
the download returns. -/
inductive DriverEffect where
  | writeManifest : DriverEffect
  | invokeMuxer : DriverEffect
  | cleanup : DriverEffect
  | reportEmpty : DriverEffect
deriving DecidableEq

/-- Embedding of the `if ts_files: ... else: ...` driver branch
(src/main.py lines 104–114): with a non-empty result it writes the manifest,
invokes the muxer and cleans up, in that order; with an empty result it only
prints the no-files message. -/
def driverEffects (ts_files : List String) : List DriverEffect :=
  if ts_files.isEmpty then [DriverEffect.reportEmpty]
  else [DriverEffect.writeManifest, DriverEffect.invokeMuxer, DriverEffect.cleanup]

/-- Character set named by the specification for sanitized filenames:
uppercase and lowercase ASCII letters, ASCII digits, space, period,
underscore and hyphen (stated through the code points 65–90, 97–122, 48–57,
32, 46, 95 and 45). -/
def specAllowedChar (c : Char) : Bool :=
  (65 ≤ c.toNat && c.toNat ≤ 90) || (97 ≤ c.toNat && c.toNat ≤ 122) ||
  (48 ≤ c.toNat && c.toNat ≤ 57) ||
  c.toNat == 32 || c.toNat == 46 || c.toNat == 95 || c.toNat == 45

/-! ### Helper lemmas about dropWhile-based stripping -/

theorem head?_dropWhile_false {α : Type} (p : α → Bool) (l : List α) (c : α)
    (h : (l.dropWhile p).head? = some c) : p c = false := by
  induction l with
  | nil => simp at h
  | cons a l ih =>
    rw [List.dropWhile_cons] at h
    by_cases hp : p a = true
    · rw [if_pos hp] at h
      exact ih h
    · rw [if_neg hp] at h
      simp only [List.head?_cons, Option.some.injEq] at h
      rw [← h]
      exact Bool.eq_false_iff.mpr hp

theorem getLast?_dropWhile {α : Type} (p : α → Bool) (m : List α)
    (h : m.dropWhile p ≠ []) : (m.dropWhile p).getLast? = m.getLast? := by
  obtain ⟨pre, hpre⟩ := @List.dropWhile_suffix α m p
  conv_rhs => rw [← hpre]
  exact (List.getLast?_append_of_ne_nil pre h).symm

theorem dropWhile_eq_self_of_head {α : Type} (p : α → Bool) (l : List α)
    (h : ∀ c, l.head? = some c → p c = false) : l.dropWhile p = l := by
  cases l with
  | nil => rfl
  | cons a l => rw [List.dropWhile_cons, h a rfl]; simp

theorem pyStripList_mem {l : List Char} {c : Char} (h : c ∈ pyStripList l) : c ∈ l := by
  unfold pyStripList at h
  rw [List.mem_reverse] at h
  have h2 := (List.dropWhile_sublist pyIsSpace).subset h
  rw [List.mem_reverse] at h2
  exact (List.dropWhile_sublist pyIsSpace).subset h2

theorem pyStripList_head {l : List Char} {c : Char}
    (h : (pyStripList l).head? = some c) : pyIsSpace c = false := by
  unfold pyStripList at h
  rw [List.head?_reverse] at h
  have hne : ((l.dropWhile pyIsSpace).reverse.dropWhile pyIsSpace) ≠ [] := by
    intro hnil; rw [hnil] at h; simp at h
  rw [getLast?_dropWhile pyIsSpace (l.dropWhile pyIsSpace).reverse hne,
    List.getLast?_reverse] at h
  exact head?_dropWhile_false pyIsSpace l c h

theorem pyStripList_getLast {l : List Char} {c : Char}
    (h : (pyStripList l).getLast? = some c) : pyIsSpace c = false := by
  unfold pyStripList at h
  rw [List.getLast?_reverse] at h
  exact head?_dropWhile_false pyIsSpace (l.dropWhile pyIsSpace).reverse c h

theorem pyStripList_eq_self {l : List Char} (h : ∀ c ∈ l, pyIsSpace c = false) :
    pyStripList l = l := by
  unfold pyStripList
  rw [dropWhile_eq_self_of_head pyIsSpace l (fun c hc => h c (by
    cases l with
    | nil => simp at hc
    | cons a l => simp at hc; simp [hc]))]
  rw [dropWhile_eq_self_of_head pyIsSpace l.reverse (fun c hc => h c (by
    cases hr : l.reverse with
    | nil => rw [hr] at hc; simp at hc
    | cons a t =>
      rw [hr] at hc
      simp at hc
      rw [← List.mem_reverse, hr, hc]
      simp))]
  exact List.reverse_reverse l

theorem pyStripList_idem (l : List Char) : pyStripList (pyStripList l) = pyStripList l := by
  conv_lhs => rw [pyStripList]
  rw [dropWhile_eq_self_of_head pyIsSpace (pyStripList l)
    (fun c hc => pyStripList_head hc)]
  rw [dropWhile_eq_self_of_head pyIsSpace (pyStripList l).reverse (fun c hc => by
    rw [List.head?_reverse] at hc
    exact pyStripList_getLast hc)]
  exact List.reverse_reverse _

theorem mem_sanitize {s : String} {c : Char} (h : c ∈ (sanitize_filename s).data) :
    c ∈ s.data ∧ keepChar c = true := by
  have h2 := pyStripList_mem h
  rw [List.mem_filter] at h2
  exact h2

/-! ### Claim C3: the sanitizer output character set -/

/-- Claim C3 as stated is false: the Python `str.isalnum` is Unicode aware, so
the non-ASCII letter `é` (U+00E9) passes the filter and survives into the
output of `sanitize_filename`, yet it is not in the set
{A–Z, a–z, 0–9, space, period, underscore, hyphen}. -/
theorem sanitize_filename_ascii_only_fails_on_eacute :
    ¬ (∀ c ∈ (sanitize_filename "é").data, specAllowedChar c = true) := by
  decide

/-- Claim C3, amended: for every input string consisting of ASCII characters,
the output of `sanitize_filename` contains only characters from the set
{A–Z, a–z, 0–9, space, period, underscore, hyphen} and has no leading or
trailing whitespace. -/
theorem sanitize_filename_ascii_allowed (s : String)
    (hascii : ∀ c ∈ s.data, c.toNat < 128) :
    (∀ c ∈ (sanitize_filename s).data, specAllowedChar c = true) ∧
    (∀ c, (sanitize_filename s).data.head? = some c → pyIsSpace c = false) ∧
    (∀ c, (sanitize_filename s).data.getLast? = some c → pyIsSpace c = false) := by
  refine ⟨fun c hc => ?_, fun c hc => pyStripList_head hc, fun c hc => pyStripList_getLast hc⟩
  obtain ⟨hmem, hkeep⟩ := mem_sanitize hc
  have hlt : c.toNat < 128 := hascii c hmem
  simp only [keepChar, pyIsAlnum, Bool.or_eq_true, Bool.and_eq_true, decide_eq_true_eq,
    beq_iff_eq] at hkeep
  rcases hkeep with h | h
  · simp only [specAllowedChar, Bool.or_eq_true, Bool.and_eq_true, decide_eq_true_eq,
      beq_iff_eq]
    omega
  · rcases h with ((h | h) | h) | h <;> subst h <;> decide

/-- Witness for the amended claim C3 at the concrete input
`"  report 01.ts  "`. -/
theorem sanitize_filename_ascii_allowed_witness :
    (∀ c ∈ (sanitize_filename "  report 01.ts  ").data, specAllowedChar c = true) ∧
    (∀ c, (sanitize_filename "  report 01.ts  ").data.head? = some c → pyIsSpace c = false) ∧
    (∀ c, (sanitize_filename "  report 01.ts  ").data.getLast? = some c → pyIsSpace c = false) :=
  sanitize_filename_ascii_allowed "  report 01.ts  " (by decide)

/-! ### Claim C9: idempotence of the sanitizer -/

/-- Claim C9: `sanitize_filename` is idempotent: applying it to its own output
returns that output unchanged. -/
theorem sanitize_filename_idempotent (s : String) :
    sanitize_filename (sanitize_filename s) = sanitize_filename s := by
  unfold sanitize_filename
  refine congrArg String.mk ?_
  have hfix : (pyStripList (s.data.filter keepChar)).filter keepChar
      = pyStripList (s.data.filter keepChar) := by
    rw [List.filter_eq_self]
    intro c hc
    exact (List.mem_filter.mp (pyStripList_mem hc)).2
  calc pyStripList ((String.mk (pyStripList (s.data.filter keepChar))).data.filter keepChar)
      = pyStripList ((pyStripList (s.data.filter keepChar)).filter keepChar) := rfl
    _ = pyStripList (pyStripList (s.data.filter keepChar)) := by rw [hfix]
    _ = pyStripList (s.data.filter keepChar) := pyStripList_idem _

/-! ### Claim C5: empty download result skips manifest, muxer and cleanup -/

/-- Claim C5: when `download_ts_segments` returns an empty list, the driver
only reports the empty result; it writes no manifest, invokes no muxer and
performs no cleanup. -/
theorem driver_empty_result_skips_everything (ts_files : List String)
    (h : ts_files = []) :
    driverEffects ts_files = [DriverEffect.reportEmpty] ∧
    DriverEffect.writeManifest ∉ driverEffects ts_files ∧
    DriverEffect.invokeMuxer ∉ driverEffects ts_files ∧
    DriverEffect.cleanup ∉ driverEffects ts_files := by
  subst h
  refine ⟨rfl, ?_, ?_, ?_⟩ <;> decide

/-- Witness for claim C5 at the concrete empty download result. -/
theorem driver_empty_result_skips_everything_witness :
    driverEffects [] = [DriverEffect.reportEmpty] ∧
    DriverEffect.writeManifest ∉ driverEffects ([] : List String) ∧
    DriverEffect.invokeMuxer ∉ driverEffects ([] : List String) ∧
    DriverEffect.cleanup ∉ driverEffects ([] : List String) :=
  driver_empty_result_skips_everything [] rfl

/-! ### Claim C7: cleanup deletes exactly the .ts entries -/

/-- Claim C7: on a flat directory listing, `cleanup_ts_files` deletes exactly
the entries whose names end in `.ts`: an entry of the directory is deleted if
and only if its name ends in `.ts`, and it remains if and only if its name
does not. -/
theorem cleanup_deletes_exactly_ts (entries : List String) (f : String)
    (hf : f ∈ entries) :
    (f ∈ cleanupDeleted entries ↔ pyEndsWith f ".ts" = true) ∧
    (f ∈ cleanup_ts_files entries ↔ pyEndsWith f ".ts" = false) := by
  constructor
  · rw [cleanupDeleted, List.mem_filter]
    exact ⟨fun h => h.2, fun h => ⟨hf, h⟩⟩
  · rw [cleanup_ts_files, List.mem_filter]
    constructor
    · intro h
      simpa using h.2
    · intro h
      exact ⟨hf, by simp [h]⟩

/-- Witness for claim C7 on the concrete directory listing
`["000000.ts", "file_list.txt"]` at the entry `"000000.ts"`. -/
theorem cleanup_deletes_exactly_ts_witness :
    ("000000.ts" ∈ cleanupDeleted ["000000.ts", "file_list.txt"] ↔
      pyEndsWith "000000.ts" ".ts" = true) ∧
    ("000000.ts" ∈ cleanup_ts_files ["000000.ts", "file_list.txt"] ↔
      pyEndsWith "000000.ts" ".ts" = false) :=
  cleanup_deletes_exactly_ts ["000000.ts", "file_list.txt"] "000000.ts" (by decide)

/-! ### Claim C6: linear backoff sleeps -/

theorem goAttempt_sleeps (respond : Nat → Bool) (retries backoff : Nat) :
    ∀ remaining attempt, attempt + remaining = retries →
      ∃ m, m ≤ remaining - 1 ∧
        (goAttempt respond retries backoff attempt remaining).2 =
          (List.range m).map (fun k => backoff * (attempt + k + 1)) := by
  intro remaining
  induction remaining with
  | zero =>
    intro attempt hsum
    exact ⟨0, by omega, by simp [goAttempt]⟩
  | succ rem ih =>
    intro attempt hsum
    by_cases hr : respond attempt = true
    · exact ⟨0, by omega, by simp [goAttempt, hr]⟩
    · by_cases hlt : attempt < retries - 1
      · obtain ⟨m, hm, heq⟩ := ih (attempt + 1) (by omega)
        have hrem : 1 ≤ rem := by omega
        refine ⟨m + 1, by omega, ?_⟩
        simp only [goAttempt, hr, Bool.false_eq_true, if_false, hlt, if_true]
        rw [heq, List.range_succ_eq_map, List.map_cons, List.map_map]
        refine congrArg₂ List.cons (by ring_nf) ?_
        refine List.map_congr_left fun k _ => ?_
        simp only [Function.comp_apply, Nat.succ_eq_add_one]
        ring
      · have hrem : rem = 0 := by omega
        subst hrem
        exact ⟨0, by omega, by simp [goAttempt, hr, hlt]⟩

/-- Claim C6: within one segment retry loop, the list of executed sleeps is
exactly `backoff * 1, backoff * 2, …` in order — the sleep performed after
failed attempt `k` (1-indexed) lasts `backoff * k` time units — and no sleep
occurs after the last attempt: at most `retries - 1` sleeps happen. -/
theorem backoff_sleep_linear (respond : Nat → Bool) (retries backoff : Nat) :
    (segmentAttempts respond retries backoff).2 =
      (List.range (segmentAttempts respond retries backoff).2.length).map
        (fun k => backoff * (k + 1)) ∧
    (segmentAttempts respond retries backoff).2.length ≤ retries - 1 := by
  obtain ⟨m, hm, heq⟩ := goAttempt_sleeps respond retries backoff retries 0 (by omega)
  rw [segmentAttempts] at *
  rw [heq]
  simp only [List.length_map, List.length_range]
  exact ⟨List.map_congr_left fun k _ => by ring_nf, hm⟩

/-! ### Claim C4: manifest contents -/

theorem foldl_string_append (l : List String) (init : String) :
    l.foldl (fun r s => r ++ s) init = init ++ String.join l := by
  induction l generalizing init with
  | nil => simp [String.join, String.append_empty]
  | cons a l ih =>
    simp only [List.foldl_cons]
    rw [ih]
    have h2 : String.join (a :: l) = a ++ String.join l := by
      rw [show String.join (a :: l) = List.foldl (fun r s => r ++ s) ("" ++ a) l from rfl,
        ih, String.empty_append]
    rw [h2, String.append_assoc]

theorem manifest_content_eq (ts_files : List String) :
    ts_files.foldl (fun acc f => acc ++ manifestLine f) "" =
      String.join (ts_files.map manifestLine) := by
  rw [← List.foldl_map, foldl_string_append]
  exact String.empty_append _

/-- Claim C4: for every non-empty list of saved file paths,
`create_ffmpeg_file_list` produces the manifest text that is exactly the
concatenation, in list order, of one record `file 'NAME'` plus newline per
path — `manifestLine` is literally that record with `NAME` the base name —
returns the manifest path in the working directory, and every base name is
free of directory components (contains no slash). -/
theorem create_ffmpeg_file_list_lines (ts_files : List String) (temp_folder : String)
    (h : ts_files ≠ []) :
    (create_ffmpeg_file_list ts_files temp_folder).2 =
      String.join (ts_files.map manifestLine) ∧
    (create_ffmpeg_file_list ts_files temp_folder).1 =
      osPathJoin temp_folder "file_list.txt" ∧
    ∀ f ∈ ts_files, ∀ c ∈ (os_path_basename f).data, c ≠ '/' := by
  refine ⟨manifest_content_eq ts_files, rfl, fun f _ c hc => ?_⟩
  rw [os_path_basename] at hc
  rw [List.mem_reverse] at hc
  have := List.mem_takeWhile_imp hc
  simpa using this

/-- Witness for claim C4 at a concrete one-element path list. -/
theorem create_ffmpeg_file_list_lines_witness :
    (create_ffmpeg_file_list ["temp_files/000000.ts"] "temp_files").2 =
      String.join (["temp_files/000000.ts"].map manifestLine) ∧
    (create_ffmpeg_file_list ["temp_files/000000.ts"] "temp_files").1 =
      osPathJoin "temp_files" "file_list.txt" ∧
    ∀ f ∈ ["temp_files/000000.ts"], ∀ c ∈ (os_path_basename f).data, c ≠ '/' :=
  create_ffmpeg_file_list_lines ["temp_files/000000.ts"] "temp_files" (by decide)

/-! ### Claim C2: URL substitution replaces only the segment pattern -/

theorem strReplaceAux_no_occur (pat rep : List Char) :
    ∀ s fuel, s.length ≤ fuel → occursIn pat s = false →
      strReplaceAux pat rep fuel s = s := by
  intro s
  induction s with
  | nil => intro fuel _ _; cases fuel <;> rfl
  | cons c rest ih =>
    intro fuel hlen hocc
    simp only [occursIn, Bool.or_eq_false_iff] at hocc
    cases fuel with
    | zero => simp at hlen
    | succ f =>
      simp only [strReplaceAux]
      rw [if_neg (by simp [hocc.1])]
      refine congrArg (c :: ·) (ih f ?_ hocc.2)
      simp only [List.length_cons] at hlen
      omega

theorem strReplaceAux_single (pat rep suf : List Char) (hpat : pat ≠ [])
    (hsuf : occursIn pat suf = false) :
    ∀ pre fuel, (pre ++ pat ++ suf).length ≤ fuel →
      (∀ j ∈ List.range pre.length,
        pat.isPrefixOf (List.drop j (pre ++ pat ++ suf)) = false) →
      strReplaceAux pat rep fuel (pre ++ pat ++ suf) = pre ++ rep ++ suf := by
  intro pre
  induction pre with
  | nil =>
    intro fuel hlen _
    cases hp : pat with
    | nil => exact absurd hp hpat
    | cons p pt =>
      subst hp
      cases fuel with
      | zero => simp at hlen
      | succ f =>
        simp only [List.nil_append, List.cons_append]
        simp only [strReplaceAux]
        rw [if_pos (by
          simp only [List.isEmpty_cons, Bool.not_false, Bool.true_and]
          exact List.isPrefixOf_iff_prefix.mpr (by
            rw [show p :: (pt ++ suf) = (p :: pt) ++ suf from rfl]
            exact List.prefix_append (p :: pt) suf))]
        refine congrArg (rep ++ ·) ?_
        simp only [List.length_cons, Nat.add_sub_cancel]
        rw [List.drop_left pt suf]
        refine strReplaceAux_no_occur (p :: pt) rep suf f ?_ hsuf
        simp only [List.cons_append, List.length_cons, List.length_append] at hlen
        omega
  | cons c pre' ih =>
    intro fuel hlen h1
    cases fuel with
    | zero => simp at hlen
    | succ f =>
      have hc0 : pat.isPrefixOf (List.drop 0 ((c :: pre') ++ pat ++ suf)) = false :=
        h1 0 (by simp)
      rw [List.drop_zero] at hc0
      simp only [List.cons_append] at hc0 ⊢
      simp only [strReplaceAux]
      rw [if_neg (fun hcond => by
        rw [Bool.and_eq_true] at hcond
        rw [hcond.2] at hc0
        exact Bool.noConfusion hc0)]
      refine congrArg (c :: ·) (ih f ?_ ?_)
      · simp only [List.length_cons, List.length_append] at hlen ⊢
        omega
      · intro j hj
        rw [List.mem_range] at hj
        have := h1 (j + 1) (by rw [List.mem_range]; simpa using Nat.succ_lt_succ hj)
        simp only [List.cons_append, List.drop_succ_cons] at this
        exact this

/-- Claim C2: when the base URL splits as `pre ++ "-000000.ts" ++ suf` and the
pattern `-000000.ts` occurs nowhere else — not at any position inside the
`pre` part and not inside `suf` — the rendered URL for index `i` is exactly
`pre ++ "-" ++ pad6 i ++ ".ts" ++ suf`: only the pattern is replaced by the
dash, the zero-padded 6-digit decimal index and the `.ts` extension, and every
other character, including host, path and query string, is preserved verbatim
and in place. -/
theorem render_url_replaces_only_pattern (base : String) (pre suf : List Char) (i : Nat)
    (hsplit : base.data = pre ++ segPat ++ suf)
    (h1 : ∀ j ∈ List.range pre.length,
      segPat.isPrefixOf (List.drop j (pre ++ segPat ++ suf)) = false)
    (h2 : occursIn segPat suf = false) :
    (renderSegmentUrl base i).data = pre ++ segRep i ++ suf := by
  rw [renderSegmentUrl]
  show strReplace segPat (segRep i) base.data = pre ++ segRep i ++ suf
  rw [hsplit, strReplace]
  exact strReplaceAux_single segPat (segRep i) suf (by decide) h2 pre _ (Nat.le_refl _) h1

/-- Witness for claim C2 at the concrete base URL
`https://ex.com/v-000000.ts?auth=ok` and index 42. -/
theorem render_url_replaces_only_pattern_witness :
    (renderSegmentUrl "https://ex.com/v-000000.ts?auth=ok" 42).data =
      "https://ex.com/v".data ++ segRep 42 ++ "?auth=ok".data :=
  render_url_replaces_only_pattern "https://ex.com/v-000000.ts?auth=ok"
    "https://ex.com/v".data "?auth=ok".data 42 (by decide) (by decide) (by decide)

/-! ### Step lemmas for the fetch loop -/

theorem stepSegment_succ (oracle : Nat → Nat → Bool) (retries backoff : Nat)
    (temp_folder : String) (st : DLState)
    (h : (segmentAttempts (oracle st.segment_number) retries backoff).1 = true) :
    stepSegment oracle retries backoff temp_folder st =
      (⟨st.segment_number + 1, 0,
        st.ts_files ++ [segPath temp_folder st.segment_number]⟩, false) := by
  rw [stepSegment, if_pos h]

theorem stepSegment_fail (oracle : Nat → Nat → Bool) (retries backoff : Nat)
    (temp_folder : String) (st : DLState)
    (h : (segmentAttempts (oracle st.segment_number) retries backoff).1 = false)
    (h5 : st.failed_attempts + 1 < 5) :
    stepSegment oracle retries backoff temp_folder st =
      (⟨st.segment_number + 1, st.failed_attempts + 1, st.ts_files⟩, false) := by
  rw [stepSegment, if_neg (by simp [h]), if_neg (by omega)]

theorem stepSegment_stop (oracle : Nat → Nat → Bool) (retries backoff : Nat)
    (temp_folder : String) (st : DLState)
    (h : (segmentAttempts (oracle st.segment_number) retries backoff).1 = false)
    (h5 : 5 ≤ st.failed_attempts + 1) :
    stepSegment oracle retries backoff temp_folder st =
      (⟨st.segment_number, st.failed_attempts + 1, st.ts_files⟩, true) := by
  rw [stepSegment, if_neg (by simp [h]), if_pos (by omega)]

theorem runLoop_step (oracle : Nat → Nat → Bool) (retries backoff : Nat)
    (temp_folder : String) (fuel : Nat) (st : DLState) :
    runLoop oracle retries backoff temp_folder (fuel + 1) st =
      if (stepSegment oracle retries backoff temp_folder st).2 then
        some (stepSegment oracle retries backoff temp_folder st).1.ts_files
      else
        runLoop oracle retries backoff temp_folder fuel
          (stepSegment oracle retries backoff temp_folder st).1 := by
  rw [runLoop]

theorem runLoop_of_step_false (oracle : Nat → Nat → Bool) (retries backoff : Nat)
    (temp_folder : String) (st st2 : DLState) (fuel : Nat)
    (h : stepSegment oracle retries backoff temp_folder st = (st2, false)) :
    runLoop oracle retries backoff temp_folder (fuel + 1) st =
      runLoop oracle retries backoff temp_folder fuel st2 := by
  rw [runLoop_step, h]
  rfl

theorem runLoop_of_step_true (oracle : Nat → Nat → Bool) (retries backoff : Nat)
    (temp_folder : String) (st st2 : DLState) (fuel : Nat)
    (h : stepSegment oracle retries backoff temp_folder st = (st2, true)) :
    runLoop oracle retries backoff temp_folder (fuel + 1) st = some st2.ts_files := by
  rw [runLoop_step, h]
  rfl

theorem runTrace_succ (oracle : Nat → Nat → Bool) (retries backoff : Nat)
    (temp_folder : String) (n : Nat) :
    runTrace oracle retries backoff temp_folder (n + 1) =
      if (runTrace oracle retries backoff temp_folder n).2 then
        runTrace oracle retries backoff temp_folder n
      else
        stepSegment oracle retries backoff temp_folder
          (runTrace oracle retries backoff temp_folder n).1 := by
  rw [runTrace]

/-- During the first four iterations the loop can never have stopped: the
failure counter is at most the number of processed segments, so it cannot
have reached 5 yet, and the segment index tracks the iteration count. -/
theorem runTrace_early (oracle : Nat → Nat → Bool) (retries backoff : Nat)
    (temp_folder : String) :
    ∀ n, n ≤ 4 →
      (runTrace oracle retries backoff temp_folder n).2 = false ∧
      (runTrace oracle retries backoff temp_folder n).1.segment_number = n ∧
      (runTrace oracle retries backoff temp_folder n).1.failed_attempts ≤ n := by
  intro n
  induction n with
  | zero => intro _; exact ⟨rfl, rfl, Nat.le_refl 0⟩
  | succ n ih =>
    intro hn
    obtain ⟨hstop, hseg, hfa⟩ := ih (by omega)
    rw [runTrace_succ, if_neg (by simp [hstop])]
    by_cases hs : (segmentAttempts
        (oracle (runTrace oracle retries backoff temp_folder n).1.segment_number)
        retries backoff).1 = true
    · rw [stepSegment_succ _ _ _ _ _ hs]
      exact ⟨rfl, by simp; omega, by simp⟩
    · have hs' := Bool.eq_false_iff.mpr hs
      rw [stepSegment_fail _ _ _ _ _ hs' (by omega)]
      exact ⟨rfl, by simp; omega, by simp; omega⟩

/-! ### Claim C8: the failure counter resets on success -/

/-- Claim C8: for every oracle in which segment 3 fails all retries, segment 4
succeeds and segment 5 fails all retries, the loop has not stopped after
processing segments 0–3, the consecutive-failure counter is 0 right after the
successful segment 4 and only 1 right after the failing segment 5, and the
loop has not stopped: the counter resets on every successful segment, so
those failures never drive it to 5. -/
theorem failure_counter_resets_on_success
    (oracle : Nat → Nat → Bool) (retries backoff : Nat) (temp_folder : String)
    (h3 : (segmentAttempts (oracle 3) retries backoff).1 = false)
    (h4 : (segmentAttempts (oracle 4) retries backoff).1 = true)
    (h5 : (segmentAttempts (oracle 5) retries backoff).1 = false) :
    (runTrace oracle retries backoff temp_folder 4).2 = false ∧
    (runTrace oracle retries backoff temp_folder 5).1.failed_attempts = 0 ∧
    (runTrace oracle retries backoff temp_folder 6).1.failed_attempts = 1 ∧
    (runTrace oracle retries backoff temp_folder 6).2 = false := by
  obtain ⟨hstop4, hseg4, _⟩ :=
    runTrace_early oracle retries backoff temp_folder 4 (Nat.le_refl 4)
  have e5 : runTrace oracle retries backoff temp_folder 5 =
      stepSegment oracle retries backoff temp_folder
        (runTrace oracle retries backoff temp_folder 4).1 := by
    rw [show (5 : Nat) = 4 + 1 from rfl, runTrace_succ, if_neg (by simp [hstop4])]
  rw [stepSegment_succ _ _ _ _ _ (by rw [hseg4]; exact h4)] at e5
  have e6 : runTrace oracle retries backoff temp_folder 6 =
      stepSegment oracle retries backoff temp_folder
        (runTrace oracle retries backoff temp_folder 5).1 := by
    rw [show (6 : Nat) = 5 + 1 from rfl, runTrace_succ, if_neg (by simp [e5])]
  rw [e5] at e6
  rw [stepSegment_fail _ _ _ _ _ (by simp; rw [hseg4]; exact h5) (by simp)] at e6
  refine ⟨hstop4, by rw [e5], by rw [e6], by rw [e6]⟩

/-- Witness for claim C8 with the concrete oracle that succeeds exactly on
segments 0, 1, 2 and 4. -/
theorem failure_counter_resets_on_success_witness :
    (runTrace (fun i _ => i ≤ 2 || i == 4) 3 2 "temp_files" 4).2 = false ∧
    (runTrace (fun i _ => i ≤ 2 || i == 4) 3 2 "temp_files" 5).1.failed_attempts = 0 ∧
    (runTrace (fun i _ => i ≤ 2 || i == 4) 3 2 "temp_files" 6).1.failed_attempts = 1 ∧
    (runTrace (fun i _ => i ≤ 2 || i == 4) 3 2 "temp_files" 6).2 = false :=
  failure_counter_resets_on_success (fun i _ => i ≤ 2 || i == 4) 3 2 "temp_files"
    (by decide) (by decide) (by decide)

/-! ### Claim C1: stop after five consecutive whole-segment failures -/

/-- Claim C1: for every oracle in which segments 0, 1 and 2 each succeed on
some attempt and segments 3–7 each fail all retries, the fetch loop runs for
exactly eight iterations — the trace after processing segment 7 is stopped,
still at segment index 7, with the failure counter at 5 — and for every
sufficient fuel bound the loop returns exactly the saved paths of segments
0, 1 and 2, in that order. -/
theorem fetch_stops_after_five_consecutive_failures
    (oracle : Nat → Nat → Bool) (retries backoff : Nat) (temp_folder : String)
    (h0 : (segmentAttempts (oracle 0) retries backoff).1 = true)
    (h1 : (segmentAttempts (oracle 1) retries backoff).1 = true)
    (h2 : (segmentAttempts (oracle 2) retries backoff).1 = true)
    (h3 : (segmentAttempts (oracle 3) retries backoff).1 = false)
    (h4 : (segmentAttempts (oracle 4) retries backoff).1 = false)
    (h5 : (segmentAttempts (oracle 5) retries backoff).1 = false)
    (h6 : (segmentAttempts (oracle 6) retries backoff).1 = false)
    (h7 : (segmentAttempts (oracle 7) retries backoff).1 = false) :
    (∀ fuel, 8 ≤ fuel →
      download_ts_segments oracle temp_folder retries backoff fuel =
        some [segPath temp_folder 0, segPath temp_folder 1, segPath temp_folder 2]) ∧
    runTrace oracle retries backoff temp_folder 8 =
      (⟨7, 5, [segPath temp_folder 0, segPath temp_folder 1, segPath temp_folder 2]⟩,
        true) := by
  have e0 : stepSegment oracle retries backoff temp_folder ⟨0, 0, []⟩ =
      (⟨1, 0, [segPath temp_folder 0]⟩, false) :=
    stepSegment_succ oracle retries backoff temp_folder ⟨0, 0, []⟩ h0
  have e1 : stepSegment oracle retries backoff temp_folder
      ⟨1, 0, [segPath temp_folder 0]⟩ =
      (⟨2, 0, [segPath temp_folder 0, segPath temp_folder 1]⟩, false) :=
    stepSegment_succ oracle retries backoff temp_folder _ h1
  have e2 : stepSegment oracle retries backoff temp_folder
      ⟨2, 0, [segPath temp_folder 0, segPath temp_folder 1]⟩ =
      (⟨3, 0, [segPath temp_folder 0, segPath temp_folder 1, segPath temp_folder 2]⟩,
        false) :=
    stepSegment_succ oracle retries backoff temp_folder _ h2
  have e3 : stepSegment oracle retries backoff temp_folder
      ⟨3, 0, [segPath temp_folder 0, segPath temp_folder 1, segPath temp_folder 2]⟩ =
      (⟨4, 1, [segPath temp_folder 0, segPath temp_folder 1, segPath temp_folder 2]⟩,
        false) :=
    stepSegment_fail oracle retries backoff temp_folder _ h3
      (show (0 : Nat) + 1 < 5 by omega)
  have e4 : stepSegment oracle retries backoff temp_folder
      ⟨4, 1, [segPath temp_folder 0, segPath temp_folder 1, segPath temp_folder 2]⟩ =
      (⟨5, 2, [segPath temp_folder 0, segPath temp_folder 1, segPath temp_folder 2]⟩,
        false) :=
    stepSegment_fail oracle retries backoff temp_folder _ h4
      (show (1 : Nat) + 1 < 5 by omega)
  have e5 : stepSegment oracle retries backoff temp_folder
      ⟨5, 2, [segPath temp_folder 0, segPath temp_folder 1, segPath temp_folder 2]⟩ =
      (⟨6, 3, [segPath temp_folder 0, segPath temp_folder 1, segPath temp_folder 2]⟩,
        false) :=
    stepSegment_fail oracle retries backoff temp_folder _ h5
      (show (2 : Nat) + 1 < 5 by omega)
  have e6 : stepSegment oracle retries backoff temp_folder
      ⟨6, 3, [segPath temp_folder 0, segPath temp_folder 1, segPath temp_folder 2]⟩ =
      (⟨7, 4, [segPath temp_folder 0, segPath temp_folder 1, segPath temp_folder 2]⟩,
        false) :=
    stepSegment_fail oracle retries backoff temp_folder _ h6
      (show (3 : Nat) + 1 < 5 by omega)
  have e7 : stepSegment oracle retries backoff temp_folder
      ⟨7, 4, [segPath temp_folder 0, segPath temp_folder 1, segPath temp_folder 2]⟩ =
      (⟨7, 5, [segPath temp_folder 0, segPath temp_folder 1, segPath temp_folder 2]⟩,
        true) :=
    stepSegment_stop oracle retries backoff temp_folder _ h7
      (show 5 ≤ (4 : Nat) + 1 by omega)
  constructor
  · intro fuel hfuel
    obtain ⟨m, rfl⟩ : ∃ m, fuel = m + 8 := ⟨fuel - 8, by omega⟩
    rw [download_ts_segments]
    calc runLoop oracle retries backoff temp_folder (m + 8) ⟨0, 0, []⟩
        = runLoop oracle retries backoff temp_folder (m + 7)
            ⟨1, 0, [segPath temp_folder 0]⟩ :=
          runLoop_of_step_false oracle retries backoff temp_folder _ _ (m + 7) e0
      _ = runLoop oracle retries backoff temp_folder (m + 6)
            ⟨2, 0, [segPath temp_folder 0, segPath temp_folder 1]⟩ :=
          runLoop_of_step_false oracle retries backoff temp_folder _ _ (m + 6) e1
      _ = runLoop oracle retries backoff temp_folder (m + 5)
            ⟨3, 0, [segPath temp_folder 0, segPath temp_folder 1,
              segPath temp_folder 2]⟩ :=
          runLoop_of_step_false oracle retries backoff temp_folder _ _ (m + 5) e2
      _ = runLoop oracle retries backoff temp_folder (m + 4)
            ⟨4, 1, [segPath temp_folder 0, segPath temp_folder 1,
              segPath temp_folder 2]⟩ :=
          runLoop_of_step_false oracle retries backoff temp_folder _ _ (m + 4) e3
      _ = runLoop oracle retries backoff temp_folder (m + 3)
            ⟨5, 2, [segPath temp_folder 0, segPath temp_folder 1,
              segPath temp_folder 2]⟩ :=
          runLoop_of_step_false oracle retries backoff temp_folder _ _ (m + 3) e4
      _ = runLoop oracle retries backoff temp_folder (m + 2)
            ⟨6, 3, [segPath temp_folder 0, segPath temp_folder 1,
              segPath temp_folder 2]⟩ :=
          runLoop_of_step_false oracle retries backoff temp_folder _ _ (m + 2) e5
      _ = runLoop oracle retries backoff temp_folder (m + 1)
            ⟨7, 4, [segPath temp_folder 0, segPath temp_folder 1,
              segPath temp_folder 2]⟩ :=
          runLoop_of_step_false oracle retries backoff temp_folder _ _ (m + 1) e6
      _ = some [segPath temp_folder 0, segPath temp_folder 1, segPath temp_folder 2] :=
          runLoop_of_step_true oracle retries backoff temp_folder _ _ m e7
  · have t1 : runTrace oracle retries backoff temp_folder (0 + 1) =
        (⟨1, 0, [segPath temp_folder 0]⟩, false) := by
      rw [runTrace_succ, if_neg (by exact Bool.false_ne_true)]
      exact e0
    have t2 : runTrace oracle retries backoff temp_folder (1 + 1) =
        (⟨2, 0, [segPath temp_folder 0, segPath temp_folder 1]⟩, false) := by
      rw [runTrace_succ, t1, if_neg (by exact Bool.false_ne_true)]
      exact e1
    have t3 : runTrace oracle retries backoff temp_folder (2 + 1) =
        (⟨3, 0, [segPath temp_folder 0, segPath temp_folder 1,
          segPath temp_folder 2]⟩, false) := by
      rw [runTrace_succ, t2, if_neg (by exact Bool.false_ne_true)]
      exact e2
    have t4 : runTrace oracle retries backoff temp_folder (3 + 1) =
        (⟨4, 1, [segPath temp_folder 0, segPath temp_folder 1,
          segPath temp_folder 2]⟩, false) := by
      rw [runTrace_succ, t3, if_neg (by exact Bool.false_ne_true)]
      exact e3
    have t5 : runTrace oracle retries backoff temp_folder (4 + 1) =
        (⟨5, 2, [segPath temp_folder 0, segPath temp_folder 1,
          segPath temp_folder 2]⟩, false) := by
      rw [runTrace_succ, t4, if_neg (by exact Bool.false_ne_true)]
      exact e4
    have t6 : runTrace oracle retries backoff temp_folder (5 + 1) =
        (⟨6, 3, [segPath temp_folder 0, segPath temp_folder 1,
          segPath temp_folder 2]⟩, false) := by
      rw [runTrace_succ, t5, if_neg (by exact Bool.false_ne_true)]
      exact e5
    have t7 : runTrace oracle retries backoff temp_folder (6 + 1) =
        (⟨7, 4, [segPath temp_folder 0, segPath temp_folder 1,
          segPath temp_folder 2]⟩, false) := by
      rw [runTrace_succ, t6, if_neg (by exact Bool.false_ne_true)]
      exact e6
    show runTrace oracle retries backoff temp_folder (7 + 1) = _
    rw [runTrace_succ, t7, if_neg (by exact Bool.false_ne_true)]
    exact e7

/-- Witness for claim C1 with the concrete oracle that succeeds exactly on
segments 0, 1 and 2, the source defaults `retries = 3`, `backoff = 2`, and
fuel 9. -/
theorem fetch_stops_after_five_consecutive_failures_witness :
    download_ts_segments (fun i _ => i ≤ 2) "temp_files" 3 2 9 =
      some [segPath "temp_files" 0, segPath "temp_files" 1, segPath "temp_files" 2] ∧
    runTrace (fun i _ => i ≤ 2) 3 2 "temp_files" 8 =
      (⟨7, 5, [segPath "temp_files" 0, segPath "temp_files" 1,
        segPath "temp_files" 2]⟩, true) :=
  ⟨(fetch_stops_after_five_consecutive_failures (fun i _ => i ≤ 2) 3 2 "temp_files"
      (by decide) (by decide) (by decide) (by decide) (by decide) (by decide)
      (by decide) (by decide)).1 9 (by decide),
   (fetch_stops_after_five_consecutive_failures (fun i _ => i ≤ 2) 3 2 "temp_files"
      (by decide) (by decide) (by decide) (by decide) (by decide) (by decide)
      (by decide) (by decide)).2⟩

/-! ### Claim C10: shape of the returned path list -/

theorem toDecimalAux_digits :
    ∀ fuel n, ∀ c ∈ toDecimalAux fuel n, 48 ≤ c.toNat ∧ c.toNat ≤ 57 := by
  intro fuel
  induction fuel with
  | zero => intro n c hc; simp [toDecimalAux] at hc
  | succ f ih =>
    intro n c hc
    rw [toDecimalAux] at hc
    by_cases h : n < 10
    · rw [if_pos h] at hc
      simp only [List.mem_singleton] at hc
      subst hc
      interval_cases n <;> decide
    · rw [if_neg h] at hc
      rw [List.mem_append] at hc
      rcases hc with hc | hc
      · exact ih (n / 10) c hc
      · simp only [List.mem_singleton] at hc
        subst hc
        have h10 : n % 10 < 10 := Nat.mod_lt _ (by omega)
        revert h10
        generalize n % 10 = m
        intro h10
        interval_cases m <;> decide

theorem pad6_digits (i : Nat) : ∀ c ∈ (pad6 i).data, 48 ≤ c.toNat ∧ c.toNat ≤ 57 := by
  intro c hc
  rw [pad6] at hc
  rw [show (String.mk (List.replicate (6 - (toDecimal i).length) '0' ++ toDecimal i)).data
    = List.replicate (6 - (toDecimal i).length) '0' ++ toDecimal i from rfl] at hc
  rw [List.mem_append] at hc
  rcases hc with hc | hc
  · rw [List.eq_of_mem_replicate hc]
    decide
  · exact toDecimalAux_digits (i + 1) i c hc

/-- Sanitization is the identity on the segment file names the fetcher
builds: every character of `pad6 i ++ ".ts"` passes the filter and none is
whitespace. -/
theorem sanitize_segment_name_id (i : Nat) :
    sanitize_filename (pad6 i ++ ".ts") = pad6 i ++ ".ts" := by
  have hall : ∀ c ∈ (pad6 i ++ ".ts").data, keepChar c = true ∧ pyIsSpace c = false := by
    intro c hc
    rw [String.data_append] at hc
    rw [List.mem_append] at hc
    rcases hc with hc | hc
    · obtain ⟨hlo, hhi⟩ := pad6_digits i c hc
      constructor
      · rw [keepChar, Bool.or_eq_true]
        left
        simp only [pyIsAlnum, Bool.or_eq_true, Bool.and_eq_true, decide_eq_true_eq,
          beq_iff_eq]
        omega
      · rw [Bool.eq_false_iff]
        intro hsp
        simp only [pyIsSpace, Bool.or_eq_true, Bool.and_eq_true, decide_eq_true_eq,
          beq_iff_eq] at hsp
        omega
    · have h3 : c = '.' ∨ c = 't' ∨ c = 's' := by
        simpa using hc
      rcases h3 with h | h | h <;> subst h <;> exact ⟨by decide, by decide⟩
  rw [sanitize_filename]
  rw [show (pad6 i ++ ".ts").data.filter keepChar
      = (pad6 i ++ ".ts").data from
    List.filter_eq_self.mpr (fun c hc => (hall c hc).1)]
  rw [pyStripList_eq_self (fun c hc => (hall c hc).2)]

/-- The path recorded for a successful segment is the temp folder joined with
the bare `pad6 i ++ ".ts"` name. -/
theorem segPath_eq (temp_folder : String) (i : Nat) :
    segPath temp_folder i = osPathJoin temp_folder (pad6 i ++ ".ts") := by
  rw [segPath, sanitize_segment_name_id]

theorem runLoop_files (oracle : Nat → Nat → Bool) (retries backoff : Nat)
    (temp_folder : String) :
    ∀ fuel (st : DLState) (files : List String) (ixs : List Nat),
      List.Chain' (· < ·) ixs →
      (∀ i ∈ ixs, i < st.segment_number) →
      st.ts_files = ixs.map (fun i => osPathJoin temp_folder (pad6 i ++ ".ts")) →
      runLoop oracle retries backoff temp_folder fuel st = some files →
      ∃ jxs : List Nat, List.Chain' (· < ·) jxs ∧
        files = jxs.map (fun i => osPathJoin temp_folder (pad6 i ++ ".ts")) := by
  intro fuel
  induction fuel with
  | zero =>
    intro st files ixs _ _ _ hrun
    exact absurd hrun (by rw [runLoop]; simp)
  | succ f ih =>
    intro st files ixs hchain hbound hfiles hrun
    by_cases hs : (segmentAttempts (oracle st.segment_number) retries backoff).1 = true
    · rw [runLoop_of_step_false oracle retries backoff temp_folder st _ f
        (stepSegment_succ oracle retries backoff temp_folder st hs)] at hrun
      refine ih ⟨st.segment_number + 1, 0,
          st.ts_files ++ [segPath temp_folder st.segment_number]⟩
        files (ixs ++ [st.segment_number]) ?_ ?_ ?_ hrun
      · rw [List.chain'_append]
        refine ⟨hchain, List.chain'_singleton _, fun x hx y hy => ?_⟩
        rw [List.head?_cons, Option.mem_some_iff] at hy
        subst hy
        exact hbound x (List.mem_of_mem_getLast? hx)
      · intro i hi
        rw [List.mem_append, List.mem_singleton] at hi
        show i < st.segment_number + 1
        rcases hi with hi | hi
        · have := hbound i hi
          omega
        · subst hi
          exact Nat.lt_succ_self _
      · show st.ts_files ++ [segPath temp_folder st.segment_number] = _
        rw [List.map_append, hfiles, List.map_singleton, segPath_eq]
    · have hs' := Bool.eq_false_iff.mpr hs
      by_cases h5 : 5 ≤ st.failed_attempts + 1
      · rw [runLoop_of_step_true oracle retries backoff temp_folder st _ f
          (stepSegment_stop oracle retries backoff temp_folder st hs' h5)] at hrun
        rw [Option.some_inj] at hrun
        exact ⟨ixs, hchain, by rw [← hrun]; exact hfiles⟩
      · rw [runLoop_of_step_false oracle retries backoff temp_folder st _ f
          (stepSegment_fail oracle retries backoff temp_folder st hs' (by omega))] at hrun
        refine ih ⟨st.segment_number + 1, st.failed_attempts + 1, st.ts_files⟩
          files ixs hchain (fun i hi => ?_) hfiles hrun
        show i < st.segment_number + 1
        have := hbound i hi
        omega

/-- Claim C10: whenever the fetch loop returns a list of paths, every path is
exactly the temp folder joined with the zero-padded 6-digit index of a
downloaded segment followed by `.ts` — sanitization being the identity on
such names — the indices appear in strictly increasing order, and no index
appears twice. -/
theorem download_paths_increasing (oracle : Nat → Nat → Bool) (retries backoff : Nat)
    (temp_folder : String) (fuel : Nat) (files : List String)
    (hrun : download_ts_segments oracle temp_folder retries backoff fuel = some files) :
    ∃ ixs : List Nat, List.Chain' (· < ·) ixs ∧ ixs.Nodup ∧
      files = ixs.map (fun i => osPathJoin temp_folder (pad6 i ++ ".ts")) ∧
      ∀ i : Nat, sanitize_filename (pad6 i ++ ".ts") = pad6 i ++ ".ts" := by
  rw [download_ts_segments] at hrun
  obtain ⟨ixs, hchain, heq⟩ := runLoop_files oracle retries backoff temp_folder fuel
    ⟨0, 0, []⟩ files [] List.chain'_nil (by simp) rfl hrun
  refine ⟨ixs, hchain, ?_, heq, fun i => sanitize_segment_name_id i⟩
  exact (List.chain'_iff_pairwise.mp hchain).nodup

/-- Witness for claim C10 with the always-failing oracle, which stops after
five failed segments and returns the empty path list. -/
theorem download_paths_increasing_witness :
    ∃ ixs : List Nat, List.Chain' (· < ·) ixs ∧ ixs.Nodup ∧
      ([] : List String) = ixs.map (fun i => osPathJoin "temp_files" (pad6 i ++ ".ts")) ∧
      ∀ i : Nat, sanitize_filename (pad6 i ++ ".ts") = pad6 i ++ ".ts" :=
  download_paths_increasing (fun _ _ => false) 3 2 "temp_files" 5 [] (by decide)

end ChzzkVodDl
